import Mathlib

/-!
A shallow embedding of the rustdoc-generated implementors-registration script
`implementors/actix/actor/trait.Actor.js`.  The script builds a lookup object
`implementors`, assigns the array of implementor descriptions for the Actor
trait under the key "actix_web", and then either hands the object to the
documentation browser hook `window.register_implementors` (when the hook has
been installed) or stores it in the fallback slot
`window.pending_implementors`.

JavaScript values that can occur in this script are modelled by `JSValue`;
the browser window by `Window` (the two globals the script touches are
explicit fields, every other window property is kept abstract in `props`);
the observable actions of the script by `Effect`.  The script itself is the
function `runScript`; `runScriptE` is the same evaluation in an
error-capable semantics in which calling a non-function raises a
`JSError.typeError`, so that absence of runtime errors is a theorem rather
than a modelling artifact.
-/

namespace TraitActorJs

/-- The JavaScript values occurring in the registration script: the
`undefined` value, strings, arrays and plain objects (ordered field lists). -/
inductive JSValue where
  | undefined : JSValue
  | str : String -> JSValue
  | arr : List JSValue -> JSValue
  | obj : List (String × JSValue) -> JSValue

/-- The documentation browser registration function that pages install as
`window.register_implementors`.  Its identity is irrelevant to the script:
calls to it are recorded as effects rather than executed. -/
inductive Hook where
  | browser : Hook

/-- The browser window state as far as the script can observe or change it:
the registration hook slot (`some _` when the hook function is installed,
`none` when the property is undefined), the `pending_implementors` slot, and
all remaining window properties, kept abstract. -/
structure Window where
  register_implementors : Option Hook
  pending_implementors : JSValue
  props : String -> JSValue

/-- Observable actions of the script: calling the registration hook with an
argument, or assigning the fallback slot `window.pending_implementors`. -/
inductive Effect where
  | hookCall : JSValue -> Effect
  | setPending : JSValue -> Effect

/-- The JavaScript value an effect delivers. -/
def Effect.arg : Effect -> JSValue
  | .hookCall a => a
  | .setPending a => a

/-- A JavaScript runtime error. -/
inductive JSError where
  | typeError : String -> JSError

/-- First element of the array assigned to `implementors["actix_web"]`:
the HTML-rendered description of `impl Actor for ClientConnector`. -/
def actorImplEntry1 : String :=
  "impl Actor for <a class=\"struct\" href=\"actix_web/client/struct.ClientConnector.html\" title=\"struct actix_web::client::ClientConnector\">ClientConnector</a>"

/-- Second element of the array assigned to `implementors["actix_web"]`:
the HTML-rendered description of the generic
`impl Actor for HttpServer<T, A, H, U>` together with its where-bounds. -/
def actorImplEntry2 : String :=
  "impl&lt;T, A, H, U, V&gt; Actor for <a class=\"struct\" href=\"actix_web/struct.HttpServer.html\" title=\"struct actix_web::HttpServer\">HttpServer</a>&lt;T, A, H, U&gt; <span class=\"where fmt-newline\">where<br>&nbsp;&nbsp;&nbsp;&nbsp;A: \x27static,<br>&nbsp;&nbsp;&nbsp;&nbsp;T: <a class=\"trait\" href=\"actix_web/server/trait.IoStream.html\" title=\"trait actix_web::server::IoStream\">IoStream</a>,<br>&nbsp;&nbsp;&nbsp;&nbsp;H: <a class=\"trait\" href=\"actix_web/server/trait.HttpHandler.html\" title=\"trait actix_web::server::HttpHandler\">HttpHandler</a>,<br>&nbsp;&nbsp;&nbsp;&nbsp;U: <a class=\"trait\" href=\"https://doc.rust-lang.org/nightly/core/iter/traits/trait.IntoIterator.html\" title=\"trait core::iter::traits::IntoIterator\">IntoIterator</a>&lt;Item = V&gt; + \x27static,<br>&nbsp;&nbsp;&nbsp;&nbsp;V: <a class=\"trait\" href=\"actix_web/server/trait.IntoHttpHandler.html\" title=\"trait actix_web::server::IntoHttpHandler\">IntoHttpHandler</a>&lt;Handler = H&gt;,&nbsp;</span>"

/-- `var implementors = \x7b\x7d;` — the freshly created empty object. -/
def implementorsInit : JSValue := JSValue.obj []

/-- JavaScript property assignment on a field list: replace the value of an
existing key, otherwise append the new key at the end. -/
def setField : List (String × JSValue) -> String -> JSValue -> List (String × JSValue)
  | [], k, x => [(k, x)]
  | (k0, v0) :: rest, k, x =>
      if k0 = k then (k, x) :: rest else (k0, v0) :: setField rest k x

/-- JavaScript property assignment `v[k] = x` on an object value (on any
non-object value the script would have thrown before reaching it; the script
only ever assigns into the object it just created). -/
def objSet : JSValue -> String -> JSValue -> JSValue
  | JSValue.obj fs, k, x => JSValue.obj (setField fs k x)
  | v, _, _ => v

/-- The field list of an object value. -/
def objFields : JSValue -> List (String × JSValue)
  | JSValue.obj fs => fs
  | _ => []

/-- JavaScript property read `v[k]`. -/
def objGet (v : JSValue) (k : String) : Option JSValue :=
  (objFields v).lookup k

/-- The implementors index the script constructs:
`var implementors = \x7b\x7d; implementors["actix_web"] = [entry1, entry2];`. -/
def implementors : JSValue :=
  objSet implementorsInit "actix_web"
    (JSValue.arr [JSValue.str actorImplEntry1, JSValue.str actorImplEntry2])

/-- Calling the value held in the hook slot: a function call succeeds and is
recorded as an effect; calling `undefined` is a `TypeError`.  The script
guards every call by the truthiness test `if (window.register_implementors)`,
so the error case is unreachable from `runScriptE`. -/
def callValue : Option Hook -> JSValue -> Except JSError (List Effect)
  | some _, a => Except.ok [Effect.hookCall a]
  | none, _ => Except.error (JSError.typeError "window.register_implementors is not a function")

/-- The registration script in the error-capable semantics: build
`implementors`, test the hook slot, and either call the hook with the index
or assign the index to `window.pending_implementors`. -/
def runScriptE (w : Window) : Except JSError (Window × List Effect) :=
  if w.register_implementors.isSome then
    (callValue w.register_implementors implementors).map (fun effs => (w, effs))
  else
    Except.ok ({ w with pending_implementors := implementors },
               [Effect.setPending implementors])

/-- The registration script as a total function on window states: the same
branching as `runScriptE`, with the (provably unreachable) error case gone. -/
def runScript (w : Window) : Window × List Effect :=
  if w.register_implementors.isSome then
    (w, [Effect.hookCall implementors])
  else
    ({ w with pending_implementors := implementors },
     [Effect.setPending implementors])


/-- Does the pattern (first argument) occur at the head of the character
list (second argument)? -/
def matchesAt : List Char -> List Char -> Bool
  | [], _ => true
  | _ :: _, [] => false
  | p :: ps, c :: cs => p == c && matchesAt ps cs

/-- The characters after the first occurrence of the (nonempty) pattern in
the list, or `none` when the pattern does not occur. -/
def afterFirst (pat : List Char) : List Char -> Option (List Char)
  | [] => none
  | c :: cs =>
      if matchesAt pat (c :: cs) then some (List.drop pat.length (c :: cs))
      else afterFirst pat cs

/-- The characters before the first occurrence of the (nonempty) pattern in
the list, or `none` when the pattern does not occur. -/
def beforeFirst (pat : List Char) : List Char -> Option (List Char)
  | [] => none
  | c :: cs =>
      if matchesAt pat (c :: cs) then some []
      else (beforeFirst pat cs).map (fun r => c :: r)

/-- Does `pat` occur as a contiguous substring of `s`? -/
def strContains (s pat : String) : Bool :=
  (afterFirst pat.data s.data).isSome

/-- The space character. -/
def spaceChar : Char := " ".front

/-- The characters after the last occurrence of `sep`, the whole list when
`sep` does not occur. -/
def afterLastChar (sep : Char) (s : List Char) : List Char :=
  s.foldl (fun acc c => if c == sep then [] else acc ++ [c]) []

/-- The name of the trait an HTML implementor description is about: the last
space-separated token before the first " for " (e.g. "Actor" in
"impl Actor for ..." and in "impl&lt;T, ...&gt; Actor for ..."). -/
def implTraitName (e : String) : Option String :=
  (beforeFirst " for ".data e.data).map (fun pre => String.mk (afterLastChar spaceChar pre))

/-- The name of the implementing type in an HTML implementor description:
the text of the first anchor after " for " (between the closing `">` of the
anchor's opening tag and the following `</a>`). -/
def implTypeName (e : String) : Option String :=
  (afterFirst " for ".data e.data).bind (fun rest =>
    (afterFirst "\">".data rest).bind (fun tRest =>
      (beforeFirst "</a>".data tRest).map String.mk))

/-- Does the impl in an HTML implementor description have generic
parameters, i.e. an escaped `<` before the " for "? -/
def implHasGenerics (e : String) : Bool :=
  match beforeFirst " for ".data e.data with
  | some pre => (afterFirst "&lt;".data pre).isSome
  | none => false

/-- Formalisation of claim C2's property, following the spec's words: the
key `k` names the trait whose implementors the entry list under it
describes.  A necessary condition is used: the trait name extracted from
every entry occurs (as a substring, in particular as a path segment) in the
key. -/
def keyNamesTraitOf (k : String) (entries : List String) : Bool :=
  entries.all (fun e =>
    match implTraitName e with
    | some t => strContains k t
    | none => false)

/-- An array element of the implementors index is well-formed when it is a
string from which an implementing-type name can be extracted, that name
occurs in the string, and, when the impl is generic, the string also carries
its where-bounds. -/
def entryWellFormed : JSValue -> Bool
  | JSValue.str s =>
      (match implTypeName s with
       | some t => !(t = "") && strContains s t
       | none => false)
      && (!implHasGenerics s || strContains s "where")
  | _ => false

/-- A value of the implementors index is well-formed when it is an array all
of whose elements are well-formed entry strings. -/
def valueWellFormed : JSValue -> Bool
  | JSValue.arr l => l.all entryWellFormed
  | _ => false



/-- Claim C1: for every initial window state exactly one of two outcomes
occurs — when the hook `window.register_implementors` is available the
script calls it exactly once with the implementors mapping as its argument,
and when the hook is absent the script instead stores the mapping in the
pending slot `window.pending_implementors`. -/
theorem hook_called_or_pending_stored (w : Window) :
    ((runScript w).2 = [Effect.hookCall implementors]
       ↔ w.register_implementors.isSome = true)
    ∧ ((runScript w).2 = [Effect.setPending implementors]
         ∧ (runScript w).1.pending_implementors = implementors
       ↔ w.register_implementors.isSome = false) := by
  cases h : w.register_implementors <;> simp [runScript, h]

/-- Claim C2 counterexample: the implementors index has exactly the key
"actix_web"; the trait whose implementors the sequence under it lists is
Actor (as every entry reads "impl ... Actor for ..."), yet the trait's name
does not occur in the key at all, so "actix_web" is not a fully-qualified
name of that trait — it is the crate's name. -/
theorem key_is_not_the_trait_name :
    (objFields implementors).map Prod.fst = ["actix_web"]
    ∧ implTraitName actorImplEntry1 = some "Actor"
    ∧ implTraitName actorImplEntry2 = some "Actor"
    ∧ keyNamesTraitOf "actix_web" [actorImplEntry1, actorImplEntry2] = false :=
  ⟨rfl, by decide, by decide, by decide⟩

/-- Claim C2 as amended: every key of the implementors index built by the
script is a string naming the crate whose implementor descriptions the
associated sequence lists — the single key is "actix_web", each entry under
it refers to the crate actix_web — while the trait (Actor) is named inside
each entry, not by the key. -/
theorem keys_are_crate_names :
    (objFields implementors).map Prod.fst = ["actix_web"]
    ∧ ([actorImplEntry1, actorImplEntry2].all
        (fun e => strContains e "actix_web" && (implTraitName e == some "Actor")))
      = true :=
  ⟨rfl, by decide⟩

/-- Claim C3: for every key of the implementors index the associated value
is an ordered sequence (a JavaScript array) all of whose elements are
strings; from each string the implementing type's name can be extracted and
occurs in the string, and whenever the impl is generic the string also
carries its where-bounds. -/
theorem implementor_values_are_string_sequences :
    (objFields implementors).all (fun kv => valueWellFormed kv.2) = true := by
  decide

/-- Claim C4: the sequence stored under the key "actix_web" has exactly two
entries, in order an entry describing ClientConnector (no generics) followed
by an entry describing HttpServer&lt;T, A, H, U&gt; together with its
where-bounds. -/
theorem actix_web_entries :
    objGet implementors "actix_web"
      = some (JSValue.arr [JSValue.str actorImplEntry1, JSValue.str actorImplEntry2])
    ∧ implTypeName actorImplEntry1 = some "ClientConnector"
    ∧ implHasGenerics actorImplEntry1 = false
    ∧ implTypeName actorImplEntry2 = some "HttpServer"
    ∧ strContains actorImplEntry2 "HttpServer</a>&lt;T, A, H, U&gt;" = true
    ∧ implHasGenerics actorImplEntry2 = true
    ∧ strContains actorImplEntry2 "<span class=\"where fmt-newline\">where" = true :=
  ⟨rfl, by decide, by decide, by decide, by decide, by decide, by decide⟩

/-- Claim C5: the implementors index is write-once — it equals the object
built from the empty object by the single assignment of the entry array
under "actix_web", every effect of the script delivers exactly this
unmodified object, and the script's only possible write to the window stores
this same object. -/
theorem index_write_once (w : Window) :
    implementors
      = objSet implementorsInit "actix_web"
          (JSValue.arr [JSValue.str actorImplEntry1, JSValue.str actorImplEntry2])
    ∧ (runScript w).2.map Effect.arg = [implementors]
    ∧ ((runScript w).1.pending_implementors = w.pending_implementors
       ∨ (runScript w).1.pending_implementors = implementors) := by
  refine ⟨rfl, ?_, ?_⟩ <;> cases h : w.register_implementors <;>
    simp [runScript, h, Effect.arg]

/-- Claim C6: the script terminates — it is a total function of the window
state (one conditional, no loops or recursion) — and its registration
effect happens exactly once per execution. -/
theorem script_single_effect (w : Window) : (runScript w).2.length = 1 := by
  cases h : w.register_implementors <;> simp [runScript, h]

/-- Claim C7: no error conditions exist — for every initial window state
(hook installed or absent, pending slot set or not) the error-capable
evaluation succeeds and agrees with the total function `runScript`; the
TypeError branch of the call rule is unreachable behind the script's
truthiness guard. -/
theorem script_never_errors (w : Window) :
    runScriptE w = Except.ok (runScript w) := by
  cases h : w.register_implementors <;>
    simp [runScriptE, runScript, callValue, h, Except.map]

/-- Claim C8 (frame property): the script never writes the hook slot nor any
other window property; when the hook is present the pending slot is left
unchanged (whatever its prior value) and the only effect is the hook call,
and when the hook is absent the only effect is the pending-slot assignment —
no registration function is invoked. -/
theorem script_frame (w : Window) :
    (runScript w).1.register_implementors = w.register_implementors
    ∧ (runScript w).1.props = w.props
    ∧ (if w.register_implementors.isSome then
         (runScript w).1.pending_implementors = w.pending_implementors
         ∧ (runScript w).2 = [Effect.hookCall implementors]
       else (runScript w).2 = [Effect.setPending implementors]) := by
  cases h : w.register_implementors <;> simp [runScript, h]

/-- Claim C9: in the fallback branch the script overwrites
`window.pending_implementors` by plain assignment — for every prior value of
the slot the result is exactly the new implementors mapping, the prior value
being discarded rather than appended to. -/
theorem pending_overwritten (w : Window)
    (h : w.register_implementors = none) :
    (runScript w).1.pending_implementors = implementors := by
  simp [runScript, h]

/-- Witness for claim C9 at a window whose pending slot already holds a
stale value: the stale value is discarded. -/
theorem pending_overwritten_witness :
    (runScript { register_implementors := none,
                 pending_implementors := JSValue.str "stale mapping",
                 props := fun _ => JSValue.undefined }).1.pending_implementors
      = implementors :=
  pending_overwritten
    { register_implementors := none,
      pending_implementors := JSValue.str "stale mapping",
      props := fun _ => JSValue.undefined } rfl

/-- Claim C10: the script is deterministic — its effect list is a function
only of whether the hook `window.register_implementors` is installed, and
the mapping delivered is the same constructed index in either branch. -/
theorem script_deterministic (w1 w2 : Window)
    (h : w1.register_implementors.isSome = w2.register_implementors.isSome) :
    (runScript w1).2 = (runScript w2).2
    ∧ (runScript w1).2.map Effect.arg = [implementors] := by
  cases h1 : w1.register_implementors <;> cases h2 : w2.register_implementors <;>
    simp [h1, h2] at h <;> simp [runScript, h1, h2, Effect.arg]

/-- Witness for claim C10: two windows that agree on hook availability but
differ in the pending slot and in every other property produce the same
effects, delivering the implementors index. -/
theorem script_deterministic_witness :
    (runScript { register_implementors := some Hook.browser,
                 pending_implementors := JSValue.undefined,
                 props := fun _ => JSValue.undefined }).2
      = (runScript { register_implementors := some Hook.browser,
                     pending_implementors := JSValue.str "other",
                     props := fun _ => JSValue.str "different window" }).2
    ∧ (runScript { register_implementors := some Hook.browser,
                   pending_implementors := JSValue.undefined,
                   props := fun _ => JSValue.undefined }).2.map Effect.arg
      = [implementors] :=
  script_deterministic
    { register_implementors := some Hook.browser,
      pending_implementors := JSValue.undefined,
      props := fun _ => JSValue.undefined }
    { register_implementors := some Hook.browser,
      pending_implementors := JSValue.str "other",
      props := fun _ => JSValue.str "different window" } rfl

end TraitActorJs
